import Mathlib

/-!
Verification development for the ISEK agent tool layer
(src/isek/agent/toolbox.py and src/isek/agent/tools/mcp_handler.py).

The Python code is shallowly embedded: Python dicts become insertion-ordered
association lists, JSON payloads become an inductive Json type, callables
become structures carrying a signature and an implementation function, and
every fallible operation returns Except.  External collaborators (the json
standard library, the HTTP layer behind requests.post, the mcp client
library) are modelled by executable stand-ins or by function parameters, as
noted on each definition.
-/

/-- Model of a decoded JSON value, the result type of json.loads. -/
inductive Json where
  | jnull : Json
  | jbool : Bool → Json
  | jnum : Int → Json
  | jstr : String → Json
  | jarr : List Json → Json
  | jobj : List (String × Json) → Json

/-- Python dict lookup d.get(k) / d[k] on an insertion-ordered association
list: the first pair with the given key wins. -/
def dictGet {α : Type} : List (String × α) → String → Option α
  | [], _ => none
  | (k, v) :: rest, key => if k = key then some v else dictGet rest key

/-- Python dict assignment d[k] = v: overwrite in place if the key is
present (Python keeps the original position), otherwise append. -/
def dictSet {α : Type} : List (String × α) → String → α → List (String × α)
  | [], key, v => [(key, v)]
  | (k, w) :: rest, key, v =>
      if k = key then (key, v) :: rest else (k, w) :: dictSet rest key v

/-- Python del d[k]: remove the (first) pair with the given key. -/
def dictDel {α : Type} : List (String × α) → String → List (String × α)
  | [], _ => []
  | (k, w) :: rest, key => if k = key then rest else (k, w) :: dictDel rest key

/-- Python list(d.keys()). -/
def dictKeys {α : Type} (d : List (String × α)) : List String :=
  d.map Prod.fst

/-- Python membership test k in d. -/
def dictMem {α : Type} (d : List (String × α)) (key : String) : Bool :=
  (dictGet d key).isSome

/-- Python dict merge as in final_args = a merged with b where entries of b
take precedence: each entry of b is written over a in order. -/
def dictMerge (a b : List (String × Json)) : List (String × Json) :=
  b.foldl (fun acc kv => dictSet acc kv.1 kv.2) a

/-- Whitespace skipping for the JSON reader. -/
def skipWs (cs : List Char) : List Char :=
  cs.dropWhile (fun c => c == ' ' || c == '\t' || c == '\n' || c == '\r')

/-- Read a JSON string body after the opening quote.  The model covers
strings without escape sequences, which is all the embedded theorems use. -/
def readStrBody (cs : List Char) : Option (String × List Char) :=
  let pre := cs.takeWhile (fun c => c != '"')
  match cs.dropWhile (fun c => c != '"') with
  | '"' :: r => some (String.mk pre, r)
  | _ => none

/-- Read a decimal natural number. -/
def readNat (cs : List Char) : Option (Nat × List Char) :=
  let ds := cs.takeWhile Char.isDigit
  match ds with
  | [] => none
  | _ => some (ds.foldl (fun acc c => acc * 10 + (c.toNat - 48)) 0,
               cs.dropWhile Char.isDigit)

mutual

/-- Fuel-based reader for one JSON value (integer-number fragment). -/
def readVal : Nat → List Char → Option (Json × List Char)
  | 0, _ => none
  | Nat.succ fuel, cs0 =>
    match skipWs cs0 with
    | '{' :: rest =>
      match skipWs rest with
      | '}' :: rest2 => some (Json.jobj [], rest2)
      | cs => (readMembers fuel cs).map (fun p => (Json.jobj p.1, p.2))
    | '[' :: rest =>
      match skipWs rest with
      | ']' :: rest2 => some (Json.jarr [], rest2)
      | cs => (readElems fuel cs).map (fun p => (Json.jarr p.1, p.2))
    | '"' :: rest => (readStrBody rest).map (fun p => (Json.jstr p.1, p.2))
    | 't' :: 'r' :: 'u' :: 'e' :: rest => some (Json.jbool true, rest)
    | 'f' :: 'a' :: 'l' :: 's' :: 'e' :: rest => some (Json.jbool false, rest)
    | 'n' :: 'u' :: 'l' :: 'l' :: rest => some (Json.jnull, rest)
    | '-' :: rest => (readNat rest).map (fun p => (Json.jnum (-(Int.ofNat p.1)), p.2))
    | cs => (readNat cs).map (fun p => (Json.jnum (Int.ofNat p.1), p.2))

/-- Reader for the members of a non-empty JSON object, up to the brace. -/
def readMembers : Nat → List Char → Option (List (String × Json) × List Char)
  | 0, _ => none
  | Nat.succ fuel, cs =>
    match skipWs cs with
    | '"' :: rest =>
      match readStrBody rest with
      | none => none
      | some (k, r1) =>
        match skipWs r1 with
        | ':' :: r2 =>
          match readVal fuel r2 with
          | none => none
          | some (v, r3) =>
            match skipWs r3 with
            | ',' :: r4 => (readMembers fuel r4).map (fun p => ((k, v) :: p.1, p.2))
            | '}' :: r4 => some ([(k, v)], r4)
            | _ => none
        | _ => none
    | _ => none

/-- Reader for the elements of a non-empty JSON array, up to the bracket. -/
def readElems : Nat → List Char → Option (List Json × List Char)
  | 0, _ => none
  | Nat.succ fuel, cs =>
    match readVal fuel cs with
    | none => none
    | some (v, r1) =>
      match skipWs r1 with
      | ',' :: r2 => (readElems fuel r2).map (fun p => (v :: p.1, p.2))
      | ']' :: r2 => some ([v], r2)
      | _ => none

end

/-- Model of the standard-library json.loads (an external collaborator of
toolbox.py): decode failures carry the library's generic decode-error
indications rather than CPython's exact position-annotated text. -/
def json_loads (s : String) : Except String Json :=
  match readVal (s.length + 1) s.data with
  | some (v, rest) =>
      if (skipWs rest).isEmpty then Except.ok v else Except.error "Extra data"
  | none => Except.error "Expecting value"

example : json_loads "\x7b\"a\": 2, \"b\": 3\x7d" =
    Except.ok (Json.jobj [("a", Json.jnum 2), ("b", Json.jnum 3)]) := rfl

example : json_loads "not-json" = Except.error "Expecting value" := rfl

example : json_loads "[1, 2]" = Except.ok (Json.jarr [Json.jnum 1, Json.jnum 2]) := rfl

mutual

/-- Python repr() of a decoded JSON value: the rendering used for the parts
inside containers (a string prints quoted here; None/True/False print in
Python style). -/
def pyReprJson : Json → String
  | Json.jnull => "None"
  | Json.jbool true => "True"
  | Json.jbool false => "False"
  | Json.jnum n => toString n
  | Json.jstr s => "'" ++ s ++ "'"
  | Json.jarr xs => "[" ++ pyReprElems xs ++ "]"
  | Json.jobj fs => "\x7b" ++ pyReprFields fs ++ "\x7d"

/-- Comma-separated Python repr of array elements. -/
def pyReprElems : List Json → String
  | [] => ""
  | [x] => pyReprJson x
  | x :: xs => pyReprJson x ++ ", " ++ pyReprElems xs

/-- Comma-separated Python repr of dict entries. -/
def pyReprFields : List (String × Json) → String
  | [] => ""
  | [(k, v)] => "'" ++ k ++ "': " ++ pyReprJson v
  | (k, v) :: fs => "'" ++ k ++ "': " ++ pyReprJson v ++ ", " ++ pyReprFields fs

end

/-- Python str() of a decoded JSON value, as produced by str(response.json())
at line 235 of toolbox.py: a top-level string is returned unquoted, every
other value prints as its repr (for which str and repr agree). -/
def pyStrJson : Json → String
  | Json.jstr s => s
  | j => pyReprJson j

example : pyStrJson (Json.jstr "hello") = "hello" := rfl

example : pyStrJson (Json.jarr [Json.jstr "hello"]) = "['hello']" := rfl

/-- Model of a Python value returned by a direct tool callable. -/
inductive PyVal where
  | vnone : PyVal
  | vint : Int → PyVal
  | vstr : String → PyVal
  | vbool : Bool → PyVal
deriving DecidableEq

/-- Python str() on such a return value, as used in line 198 of toolbox.py. -/
def pyStr : PyVal → String
  | PyVal.vnone => "None"
  | PyVal.vint n => toString n
  | PyVal.vstr s => s
  | PyVal.vbool true => "True"
  | PyVal.vbool false => "False"

/-- Model of a Python parameter-annotation class usable in type_map. -/
inductive PyType where
  | pstr : PyType
  | pint : PyType
  | pfloat : PyType
  | pbool : PyType
  | plist : PyType
  | pdict : PyType
  | pnone : PyType
  | other : String → PyType
deriving DecidableEq

/-- Model of a parameter annotation: absent (inspect.Parameter.empty), a
plain class, or a typing.Union of classes (Optional included). -/
inductive Ann where
  | empty : Ann
  | ty : PyType → Ann
  | union : List PyType → Ann
deriving DecidableEq

/-- Model of inspect.Parameter.kind. -/
inductive PKind where
  | posOnly : PKind
  | posOrKw : PKind
  | kwOnly : PKind
  | varPos : PKind
  | varKw : PKind
deriving DecidableEq

/-- Model of one inspect.Parameter: the default, when present, is carried as
the text Python's str() renders for it (only used in descriptions). -/
structure Param where
  name : String
  kind : PKind
  ann : Ann
  default : Option String
deriving DecidableEq

/-- The type_map dictionary of _function_to_schema with its .get default:
any class not in the table maps to "string". -/
def typeMapGet : PyType → String
  | PyType.pstr => "string"
  | PyType.pint => "integer"
  | PyType.pfloat => "number"
  | PyType.pbool => "boolean"
  | PyType.plist => "array"
  | PyType.pdict => "object"
  | PyType.pnone => "null"
  | PyType.other _ => "string"

/-- The Optional/Union unwrap of _function_to_schema lines 346-351: drop
NoneType from the union's arguments; when exactly one class remains that
class becomes the annotation, otherwise the annotation is left unchanged. -/
def annResolve : Ann → Ann
  | Ann.union ts =>
      match ts.filter (fun t => t != PyType.pnone) with
      | [t] => Ann.ty t
      | _ => Ann.union ts
  | a => a

/-- json_type computation of _function_to_schema lines 343-354: default
"string"; an empty annotation keeps the default; a resolved class goes
through type_map.get; an unresolved union is not a type_map key. -/
def annToType (a : Ann) : String :=
  match annResolve a with
  | Ann.empty => "string"
  | Ann.ty t => typeMapGet t
  | Ann.union _ => "string"

/-- Python str() of an annotation class, for the description text. -/
def pyTypeRepr : PyType → String
  | PyType.pstr => "<class 'str'>"
  | PyType.pint => "<class 'int'>"
  | PyType.pfloat => "<class 'float'>"
  | PyType.pbool => "<class 'bool'>"
  | PyType.plist => "<class 'list'>"
  | PyType.pdict => "<class 'dict'>"
  | PyType.pnone => "<class 'NoneType'>"
  | PyType.other s => s

/-- Python str() of the (resolved) annotation object in the f-string of
line 357; the text of a residual typing.Union is modelled generically. -/
def annRepr : Ann → String
  | Ann.empty => "<class 'inspect._empty'>"
  | Ann.ty t => pyTypeRepr t
  | Ann.union ts =>
      "typing.Union[" ++ String.intercalate ", " (ts.map pyTypeRepr) ++ "]"

/-- The parameter description of lines 357-359. -/
def paramDescription (p : Param) : String :=
  let base := "Parameter '" ++ p.name ++ "' of type " ++ annRepr (annResolve p.ann)
  match p.default with
  | none => base
  | some d => base ++ " (default: " ++ d ++ ")"

/-- One property entry of the synthesized schema. -/
structure PropSchema where
  type : String
  description : String
deriving DecidableEq

/-- The skip conditions of the properties loop, lines 337-340: an implicit
receiver (a POSITIONAL_OR_KEYWORD parameter named self) and variadic
parameters never appear in properties. -/
def skipProp (p : Param) : Bool :=
  (p.name == "self" && p.kind == PKind.posOrKw)
    || p.kind == PKind.varPos || p.kind == PKind.varKw

/-- The property dict entry built for one non-skipped parameter. -/
def mkProp (p : Param) : PropSchema :=
  { type := annToType p.ann, description := paramDescription p }

/-- The parameters_properties dict built by the loop of lines 335-361. -/
def schemaProps (params : List Param) : List (String × PropSchema) :=
  params.foldl (fun acc p => if skipProp p then acc else dictSet acc p.name (mkProp p)) []

/-- The required filter of lines 363-370: no default, not named self, not
variadic. -/
def reqParam (p : Param) : Bool :=
  p.default == none && p.name != "self"
    && p.kind != PKind.varPos && p.kind != PKind.varKw

/-- The required list of lines 363-370. -/
def schemaRequired (params : List Param) : List String :=
  (params.filter reqParam).map Param.name

/-- The function part of the schema dict returned at lines 372-383; the
constant wrappers type: "function" and parameters.type: "object" are left
implicit in the record shape. -/
structure FnSchema where
  name : String
  description : String
  properties : List (String × PropSchema)
  required : List String
deriving DecidableEq

/-- Model of a registered Python callable: sig is the introspected
signature, none when inspect.signature raises ValueError; impl is the
behaviour of the call itself on keyword arguments (Except.error models an
exception escaping the call). -/
structure PyFunc where
  name : String
  doc : Option String
  sig : Option (List Param)
  impl : List (String × Json) → Except String PyVal

/-- Model of Python str.strip(): drop whitespace from both ends. -/
def pyStrip (s : String) : String :=
  String.mk (((s.data.dropWhile (fun c => c == ' ' || c == '\t' || c == '\n' || c == '\r')).reverse.dropWhile
      (fun c => c == ' ' || c == '\t' || c == '\n' || c == '\r')).reverse)

/-- The description text of register_tool line 88 and schema line 376:
the docstring, or the generated placeholder, stripped. -/
def funcDescription (f : PyFunc) : String :=
  pyStrip (match f.doc with
   | some d => d
   | none => "No description provided for tool " ++ f.name ++ ".")

/-- Model of ToolBox._function_to_schema: fails (ValueError) when the
signature cannot be introspected; the inner text of the library's
ValueError is modelled generically. -/
def function_to_schema (f : PyFunc) : Except String FnSchema :=
  match f.sig with
  | none =>
      Except.error ("Failed to get signature for function '" ++ f.name
        ++ "': unsupported callable")
  | some params =>
      Except.ok { name := f.name
                , description := funcDescription f
                , properties := schemaProps params
                , required := schemaRequired params }

/-- State of a ToolBox instance: the four dicts of __init__. -/
structure ToolBox where
  all_tools : List (String × PyFunc)
  mcp_tools : List (String × Json)
  tool_descriptions : List (String × String)
  tool_schemas : List (String × FnSchema)

/-- A ToolBox built with no MCP server URL: all containers empty. -/
def ToolBox.empty : ToolBox :=
  { all_tools := [], mcp_tools := [], tool_descriptions := [], tool_schemas := [] }

/-- Model of ToolBox.register_tool, lines 58-90.  The second component is
the list of messages passed to self._log; the method itself returns None
and raises nothing: a schema failure is logged, the partially-stored entry
is deleted from all_tools, and the method returns. -/
def register_tool (tb : ToolBox) (f : PyFunc) : ToolBox × List String :=
  let name := f.name
  let warn : List String :=
    if dictMem tb.all_tools name then
      ["Warning: Tool '" ++ name ++ "' is being re-registered. Overwriting existing tool."]
    else []
  let tb1 : ToolBox := { tb with all_tools := dictSet tb.all_tools name f }
  match function_to_schema f with
  | Except.error e =>
      ({ tb1 with all_tools := dictDel tb1.all_tools name },
       warn ++ ["Error generating schema for tool '" ++ name ++ "': " ++ e
                 ++ ". Tool not fully registered."])
  | Except.ok sch =>
      let tb2 : ToolBox := { tb1 with tool_schemas := dictSet tb1.tool_schemas name sch }
      let tb3 : ToolBox :=
        { tb2 with tool_descriptions := dictSet tb2.tool_descriptions name (funcDescription f) }
      (tb3, warn ++ ["Tool added: " ++ name])

/-- Model of ToolBox.register_tools: register each function in order. -/
def register_tools (tb : ToolBox) (fs : List PyFunc) : ToolBox :=
  fs.foldl (fun t f => (register_tool t f).1) tb

/-- Model of ToolBox.get_tool. -/
def get_tool (tb : ToolBox) (name : String) : Option PyFunc :=
  dictGet tb.all_tools name

/-- Model of ToolBox.get_tool_names. -/
def get_tool_names (tb : ToolBox) : List String :=
  dictKeys tb.all_tools

/-- Model of ToolBox.get_tool_schemas, line 137: one schema per key of
all_tools that also has an entry in tool_schemas. -/
def get_tool_schemas (tb : ToolBox) : List FnSchema :=
  (dictKeys tb.all_tools).filterMap (fun n => dictGet tb.tool_schemas n)

/-- Model of the tool_call.function.arguments attribute: either a Python
string, or a non-string value carried with the str(type(...)) text used in
the error message. -/
inductive PyArgs where
  | pstr : String → PyArgs
  | nonstr : String → PyArgs
deriving DecidableEq

/-- Model of an LLM tool_call object: fnName is none when accessing
tool_call.function.name raises AttributeError. -/
structure ToolCall where
  fnName : Option String
  arguments : PyArgs

/-- Python str(type(x)) of a decoded JSON value, for the type-error text. -/
def pyJsonTypeName : Json → String
  | Json.jnull => "<class 'NoneType'>"
  | Json.jbool _ => "<class 'bool'>"
  | Json.jnum _ => "<class 'int'>"
  | Json.jstr _ => "<class 'str'>"
  | Json.jarr _ => "<class 'list'>"
  | Json.jobj _ => "<class 'dict'>"

/-- The argument-normalization steps shared by _execute_direct_tool lines
187-193 and _execute_mcp_tool lines 218-224: reject a non-string arguments
attribute (ValueError), decode the JSON (json.loads may raise), reject a
decoded value that is not a dict (ValueError). -/
def parse_llm_args (name : String) (a : PyArgs) : Except String (List (String × Json)) :=
  match a with
  | PyArgs.nonstr ty =>
      Except.error ("Tool arguments for '" ++ name ++ "' must be a JSON string, got " ++ ty)
  | PyArgs.pstr s =>
      match json_loads s with
      | Except.error e => Except.error e
      | Except.ok (Json.jobj fields) => Except.ok fields
      | Except.ok v =>
          Except.error ("Parsed tool arguments for '" ++ name
            ++ "' must be a dictionary, got " ++ pyJsonTypeName v)

/-- Model of ToolBox._execute_direct_tool, lines 172-202: every exception
inside the try block is converted to the error string of line 200; a None
result yields the fixed sentinel of line 198, any other result is passed
through str(). -/
def execute_direct_tool (name : String) (f : PyFunc) (tc : ToolCall)
    (kwargs : List (String × Json)) : String :=
  match parse_llm_args name tc.arguments with
  | Except.error e => "Error executing direct tool '" ++ name ++ "': " ++ e
  | Except.ok args =>
      match f.impl (dictMerge args kwargs) with
      | Except.error e => "Error executing direct tool '" ++ name ++ "': " ++ e
      | Except.ok PyVal.vnone => "Tool executed successfully with no return value."
      | Except.ok v => pyStr v

/-- Behaviour of the HTTP round trip of _execute_mcp_tool lines 229-234
(requests.post, raise_for_status, response.json) — an external collaborator,
passed as a parameter: Except.error is any exception raised on the way,
Except.ok the decoded response body. -/
def HttpFn : Type :=
  String → List (String × Json) → Except String Json

/-- Model of ToolBox._execute_mcp_tool, lines 204-239: same argument
normalization as the direct path, then the HTTP round trip; any exception
becomes the error string of line 237, a decoded body is passed through
str(). -/
def execute_mcp_tool (http : HttpFn) (name : String) (tc : ToolCall)
    (kwargs : List (String × Json)) : String :=
  match parse_llm_args name tc.arguments with
  | Except.error e => "Error executing MCP tool '" ++ name ++ "': " ++ e
  | Except.ok args =>
      match http name (dictMerge args kwargs) with
      | Except.error e => "Error executing MCP tool '" ++ name ++ "': " ++ e
      | Except.ok j => pyStrJson j

/-- Model of ToolBox.execute_tool_call, lines 139-170: read the tool name
(AttributeError → fixed message), try the direct tools first, then the MCP
tools, else the not-found message of line 168. -/
def execute_tool_call (tb : ToolBox) (http : HttpFn) (tc : ToolCall)
    (kwargs : List (String × Json)) : String :=
  match tc.fnName with
  | none => "Invalid tool_call object: missing 'function.name' attribute."
  | some name =>
      match dictGet tb.all_tools name with
      | some f => execute_direct_tool name f tc kwargs
      | none =>
          if dictMem tb.mcp_tools name then execute_mcp_tool http name tc kwargs
          else "Tool '" ++ name ++ "' not found in either direct tools or MCP tools."

/-- Model of one mcp ClientSession object entered on the handler's exit
stack; closed records whether the exit stack has closed it. -/
structure MCPSession where
  closed : Bool
deriving DecidableEq

/-- State of an MCPHandler instance (mcp_handler.py): the session attribute
starts as None and, once connected, keeps referencing the session object. -/
structure MCPHandler where
  session : Option MCPSession
deriving DecidableEq

/-- MCPHandler.__init__: self.session = None. -/
def MCPHandler.init : MCPHandler :=
  { session := none }

/-- Model of MCPHandler.connect_to_server, lines 32-59: reject a path that
ends in neither .py nor .js (ValueError), otherwise store a fresh live
session; the spawn/handshake of the external mcp library is taken to
succeed. -/
def connect_to_server (h : MCPHandler) (path : String) : Except String MCPHandler :=
  if path.endsWith ".py" || path.endsWith ".js" then
    Except.ok { h with session := some { closed := false } }
  else
    Except.error "Server script must be a .py or .js file"

/-- Observable control flow of MCPHandler.execute_tool, lines 89-109, up to
the external call: the not-connected guard of lines 97-98 raises
RuntimeError only when session is None; otherwise the method proceeds into
session.call_tool on whatever session object is stored. -/
inductive ExecAttempt where
  | raiseNotConnected : String → ExecAttempt
  | callAttempted : MCPSession → String → ExecAttempt
deriving DecidableEq

/-- Model of MCPHandler.execute_tool's session handling. -/
def execute_tool (h : MCPHandler) (name : String) : ExecAttempt :=
  match h.session with
  | none => ExecAttempt.raiseNotConnected "Not connected to MCP server"
  | some s => ExecAttempt.callAttempted s name

/-- Observable control flow of MCPHandler.get_available_tools, lines 61-87:
raise RuntimeError when session is None, else proceed into
session.list_tools. -/
inductive ListAttempt where
  | raiseNotConnected : String → ListAttempt
  | listAttempted : MCPSession → ListAttempt
deriving DecidableEq

/-- Model of MCPHandler.get_available_tools's session handling. -/
def get_available_tools (h : MCPHandler) : ListAttempt :=
  match h.session with
  | none => ListAttempt.raiseNotConnected "Not connected to MCP server"
  | some s => ListAttempt.listAttempted s

/-- Model of MCPHandler.cleanup, lines 111-115: aclose() on the exit stack
closes the entered session object, but the session attribute itself is not
reset to None. -/
def cleanup (h : MCPHandler) : MCPHandler :=
  { h with session := h.session.map (fun _ => { closed := true }) }

/-- A placeholder HTTP layer whose every round trip raises. -/
def httpDummy : HttpFn := fun _ _ => Except.error "connection refused"

/-- Signature of the add(a, b) example callable of the testable properties. -/
def addParams : List Param :=
  [ { name := "a", kind := PKind.posOrKw, ann := Ann.ty PyType.pint, default := none }
  , { name := "b", kind := PKind.posOrKw, ann := Ann.ty PyType.pint, default := none } ]

/-- The add(a, b) example callable: adds its two integer arguments, raises
TypeError on anything else. -/
def addFunc : PyFunc :=
  { name := "add"
  , doc := some "Add two numbers."
  , sig := some addParams
  , impl := fun args =>
      match dictGet args "a", dictGet args "b" with
      | some (Json.jnum a), some (Json.jnum b) => Except.ok (PyVal.vint (a + b))
      | _, _ => Except.error "unsupported operand type(s) for +" }

/-- A ToolBox with add registered through register_tool. -/
def addBox : ToolBox := (register_tool ToolBox.empty addFunc).1

/-- The round-trip call request of the testable properties. -/
def addCall : ToolCall :=
  { fnName := some "add", arguments := PyArgs.pstr "\x7b\"a\": 2, \"b\": 3\x7d" }

/-- The unknown-tool call request of the testable properties. -/
def ghostCall : ToolCall :=
  { fnName := some "ghost", arguments := PyArgs.pstr "\x7b\x7d" }

/-- A registered callable whose body always raises. -/
def failFunc : PyFunc :=
  { name := "boom", doc := none, sig := some []
  , impl := fun _ => Except.error "RuntimeError: boom" }

/-- A ToolBox with the raising callable registered. -/
def failBox : ToolBox := (register_tool ToolBox.empty failFunc).1

/-- A call request for the raising callable. -/
def failCall : ToolCall :=
  { fnName := some "boom", arguments := PyArgs.pstr "\x7b\x7d" }

/-- An introspectable callable named f. -/
def okTool : PyFunc :=
  { name := "f", doc := none, sig := some [], impl := fun _ => Except.ok PyVal.vnone }

/-- A non-introspectable callable also named f. -/
def badTool : PyFunc :=
  { name := "f", doc := none, sig := none, impl := fun _ => Except.error "TypeError" }

/-- A non-introspectable callable under a fresh name. -/
def badFresh : PyFunc :=
  { name := "g", doc := none, sig := none, impl := fun _ => Except.error "TypeError" }

/-- A ToolBox that discovered one MCP tool named m and has no direct tools. -/
def mcpBox : ToolBox :=
  { ToolBox.empty with mcp_tools := [("m", Json.jobj [])] }

/-- An HTTP layer whose round trip succeeds with a JSON null body. -/
def httpNull : HttpFn := fun _ _ => Except.ok Json.jnull

/-- A call request for the MCP tool m. -/
def mcpCall : ToolCall :=
  { fnName := some "m", arguments := PyArgs.pstr "\x7b\x7d" }

/-- The parameter x: int of the schema example f(x, y). -/
def paramX : Param :=
  { name := "x", kind := PKind.posOrKw, ann := Ann.ty PyType.pint, default := none }

/-- The parameter y: str = "hi" of the schema example f(x, y). -/
def paramY : Param :=
  { name := "y", kind := PKind.posOrKw, ann := Ann.ty PyType.pstr, default := some "hi" }

/-- The schema example callable f(x: int, y: str = "hi"). -/
def fxyFunc : PyFunc :=
  { name := "f", doc := some "Example f.", sig := some [paramX, paramY]
  , impl := fun _ => Except.ok PyVal.vnone }

/-- The schema synthesized for fxyFunc, spelled out. -/
def fxySchema : FnSchema :=
  { name := "f"
  , description := "Example f."
  , properties :=
      [ ("x", { type := "integer", description := "Parameter 'x' of type <class 'int'>" })
      , ("y", { type := "string"
              , description := "Parameter 'y' of type <class 'str'> (default: hi)" }) ]
  , required := ["x"] }

/-- A ToolBox holding add both as a direct tool and as an MCP tool. -/
def bothBox : ToolBox :=
  { addBox with mcp_tools := [("add", Json.jobj [])] }

/-- An HTTP layer that would answer with a recognizable body, to show the
MCP backend is not consulted. -/
def httpWrong : HttpFn := fun _ _ => Except.ok (Json.jstr "wrong backend")

/-- A handler holding a live session, as left by connect_to_server. -/
def liveHandler : MCPHandler := { session := some { closed := false } }

/-- Error projection of an Except result. -/
def errOf {α : Type} : Except String α → Option String
  | Except.error e => some e
  | Except.ok _ => none

theorem dictGet_dictSet_self {α : Type} (d : List (String × α)) (k : String) (v : α) :
    dictGet (dictSet d k v) k = some v := by
  induction d with
  | nil => simp [dictSet, dictGet]
  | cons hd tl ih =>
      obtain ⟨a, w⟩ := hd
      by_cases hak : a = k
      · simp [dictSet, hak, dictGet]
      · simp [dictSet, hak, dictGet, ih]

theorem dictGet_dictSet_ne {α : Type} (d : List (String × α)) (k k' : String) (v : α)
    (h : k' ≠ k) : dictGet (dictSet d k v) k' = dictGet d k' := by
  have hkk : ¬ (k = k') := fun hh => h hh.symm
  induction d with
  | nil => simp [dictSet, dictGet, hkk]
  | cons hd tl ih =>
      obtain ⟨a, w⟩ := hd
      by_cases hak : a = k
      · subst hak
        simp [dictSet, dictGet, hkk]
      · simp only [dictSet, if_neg hak]
        by_cases hak' : a = k'
        · simp [dictGet, hak']
        · simp [dictGet, hak', ih]

theorem dictDel_dictSet {α : Type} (d : List (String × α)) (k : String) (v : α) :
    dictDel (dictSet d k v) k = dictDel d k := by
  induction d with
  | nil => simp [dictSet, dictDel]
  | cons hd tl ih =>
      obtain ⟨a, w⟩ := hd
      by_cases hak : a = k
      · simp [dictSet, hak, dictDel]
      · simp [dictSet, hak, dictDel, ih]

theorem dictDel_of_get_none {α : Type} (d : List (String × α)) (k : String)
    (h : dictGet d k = none) : dictDel d k = d := by
  induction d with
  | nil => simp [dictDel]
  | cons hd tl ih =>
      obtain ⟨a, w⟩ := hd
      by_cases hak : a = k
      · simp [dictGet, hak] at h
      · simp only [dictGet, if_neg hak] at h
        simp [dictDel, hak, ih h]

theorem dictDel_sublist {α : Type} (d : List (String × α)) (k : String) :
    List.Sublist (dictDel d k) d := by
  induction d with
  | nil => simp [dictDel]
  | cons hd tl ih =>
      obtain ⟨a, w⟩ := hd
      by_cases hak : a = k
      · simp only [dictDel, if_pos hak]
        exact List.sublist_cons_self _ _
      · simp only [dictDel, if_neg hak]
        exact List.Sublist.cons₂ _ ih

theorem mem_dictKeys_dictSet {α : Type} (d : List (String × α)) (k k' : String) (v : α) :
    k' ∈ dictKeys (dictSet d k v) ↔ k' = k ∨ k' ∈ dictKeys d := by
  induction d with
  | nil => simp [dictSet, dictKeys]
  | cons hd tl ih =>
      obtain ⟨a, w⟩ := hd
      by_cases hak : a = k
      · subst hak
        have hset : dictSet ((a, w) :: tl) a v = (a, v) :: tl := by simp [dictSet]
        rw [hset]
        simp only [dictKeys, List.map_cons, List.mem_cons]
        tauto
      · simp only [dictSet, if_neg hak, dictKeys, List.map_cons, List.mem_cons]
        simp only [dictKeys] at ih
        rw [ih]
        tauto

theorem dictKeys_dictSet_of_mem {α : Type} (d : List (String × α)) (k : String) (v : α)
    (h : dictGet d k ≠ none) : dictKeys (dictSet d k v) = dictKeys d := by
  induction d with
  | nil => simp [dictGet] at h
  | cons hd tl ih =>
      obtain ⟨a, w⟩ := hd
      by_cases hak : a = k
      · subst hak
        simp [dictSet, dictKeys]
      · simp only [dictGet, if_neg hak] at h
        simp only [dictSet, if_neg hak, dictKeys, List.map_cons]
        simp only [dictKeys] at ih
        rw [ih h]

theorem dictKeys_dictSet_of_none {α : Type} (d : List (String × α)) (k : String) (v : α)
    (h : dictGet d k = none) : dictKeys (dictSet d k v) = dictKeys d ++ [k] := by
  induction d with
  | nil => simp [dictSet, dictKeys]
  | cons hd tl ih =>
      obtain ⟨a, w⟩ := hd
      by_cases hak : a = k
      · simp [dictGet, hak] at h
      · simp only [dictGet, if_neg hak] at h
        simp only [dictSet, if_neg hak, dictKeys, List.map_cons, List.cons_append]
        simp only [dictKeys] at ih
        rw [ih h]

theorem dictGet_none_iff {α : Type} (d : List (String × α)) (k : String) :
    dictGet d k = none ↔ k ∉ dictKeys d := by
  induction d with
  | nil => simp [dictGet, dictKeys]
  | cons hd tl ih =>
      obtain ⟨a, w⟩ := hd
      by_cases hak : a = k
      · subst hak
        simp [dictGet, dictKeys]
      · simp only [dictGet, if_neg hak, dictKeys, List.map_cons, List.mem_cons]
        simp only [dictKeys] at ih
        rw [ih]
        constructor
        · rintro hh (h1 | h2)
          · exact hak h1.symm
          · exact hh h2
        · intro hh
          exact fun h2 => hh (Or.inr h2)

theorem dictMem_iff {α : Type} (d : List (String × α)) (k : String) :
    dictMem d k = true ↔ k ∈ dictKeys d := by
  rw [dictMem, Option.isSome_iff_ne_none, ne_eq, dictGet_none_iff]
  simp

theorem nodup_dictKeys_dictSet {α : Type} (d : List (String × α)) (k : String) (v : α)
    (h : (dictKeys d).Nodup) : (dictKeys (dictSet d k v)).Nodup := by
  by_cases hm : dictGet d k = none
  · rw [dictKeys_dictSet_of_none d k v hm]
    have hk : k ∉ dictKeys d := (dictGet_none_iff d k).mp hm
    simp [List.nodup_append, h, hk]
  · rw [dictKeys_dictSet_of_mem d k v hm]
    exact h

theorem reqParam_iff (p : Param) :
    reqParam p = true ↔
      (p.default = none ∧ p.name ≠ "self"
        ∧ p.kind ≠ PKind.varPos ∧ p.kind ≠ PKind.varKw) := by
  simp [reqParam, Bool.and_eq_true, beq_iff_eq, bne_iff_ne, and_assoc]

theorem skipProp_false_of_req (p : Param) (h : reqParam p = true) : skipProp p = false := by
  rw [reqParam_iff] at h
  obtain ⟨h1, h2, h3, h4⟩ := h
  simp [skipProp, h2, h3, h4]

theorem keys_foldl_props_mono (params : List Param) (acc : List (String × PropSchema))
    (x : String) (h : x ∈ dictKeys acc) :
    x ∈ dictKeys (params.foldl
      (fun acc p => if skipProp p then acc else dictSet acc p.name (mkProp p)) acc) := by
  induction params generalizing acc with
  | nil => simpa using h
  | cons q qs ih =>
      simp only [List.foldl_cons]
      apply ih
      by_cases hs : skipProp q = true
      · simpa [hs] using h
      · have hs' : skipProp q = false := by revert hs; cases skipProp q <;> simp
        simp only [hs', Bool.false_eq_true, if_false]
        exact (mem_dictKeys_dictSet acc q.name x (mkProp q)).mpr (Or.inr h)

theorem name_mem_keys_foldl_props (params : List Param) (acc : List (String × PropSchema))
    (p : Param) (hp : p ∈ params) (hs : skipProp p = false) :
    p.name ∈ dictKeys (params.foldl
      (fun acc p => if skipProp p then acc else dictSet acc p.name (mkProp p)) acc) := by
  induction params generalizing acc with
  | nil => cases hp
  | cons q qs ih =>
      simp only [List.foldl_cons]
      rcases List.mem_cons.mp hp with hqp | hp'
      · subst hqp
        apply keys_foldl_props_mono
        simp only [hs, Bool.false_eq_true, if_false]
        exact (mem_dictKeys_dictSet acc p.name p.name (mkProp p)).mpr (Or.inl rfl)
      · exact ih _ hp'

theorem required_subset_props (params : List Param) :
    schemaRequired params ⊆ dictKeys (schemaProps params) := by
  intro x hx
  simp only [schemaRequired, List.mem_map] at hx
  obtain ⟨p, hpf, hname⟩ := hx
  rw [List.mem_filter] at hpf
  obtain ⟨hp, hreq⟩ := hpf
  subst hname
  exact name_mem_keys_foldl_props params [] p hp (skipProp_false_of_req p hreq)

theorem schema_ok_subset (f : PyFunc) (sch : FnSchema)
    (hf : function_to_schema f = Except.ok sch) :
    sch.required ⊆ dictKeys sch.properties := by
  cases hsig : f.sig with
  | none => simp [function_to_schema, hsig] at hf
  | some params =>
      simp only [function_to_schema, hsig, Except.ok.injEq] at hf
      subst hf
      exact required_subset_props params

theorem register_tool_error (tb : ToolBox) (f : PyFunc) (e : String)
    (hf : function_to_schema f = Except.error e) :
    (register_tool tb f).1 = { tb with all_tools := dictDel tb.all_tools f.name } := by
  simp only [register_tool, hf]
  simp [dictDel_dictSet]

theorem register_tool_ok (tb : ToolBox) (f : PyFunc) (sch : FnSchema)
    (hf : function_to_schema f = Except.ok sch) :
    (register_tool tb f).1 =
      { tb with all_tools := dictSet tb.all_tools f.name f
              , tool_schemas := dictSet tb.tool_schemas f.name sch
              , tool_descriptions :=
                  dictSet tb.tool_descriptions f.name (funcDescription f) } := by
  simp only [register_tool, hf]

/-- The invariant maintained over registrations: keys of all_tools are
distinct, and every registered name has a schema whose required list is a
subset of its property keys. -/
def RegInv (tb : ToolBox) : Prop :=
  (dictKeys tb.all_tools).Nodup ∧
  ∀ n, n ∈ dictKeys tb.all_tools →
    ∃ sch, dictGet tb.tool_schemas n = some sch
      ∧ sch.required ⊆ dictKeys sch.properties

theorem regInv_empty : RegInv ToolBox.empty := by
  constructor
  · simp [ToolBox.empty, dictKeys]
  · intro n hn
    simp [ToolBox.empty, dictKeys] at hn

theorem regInv_register (tb : ToolBox) (f : PyFunc) (h : RegInv tb) :
    RegInv (register_tool tb f).1 := by
  obtain ⟨hnd, hinv⟩ := h
  cases hfs : function_to_schema f with
  | error e =>
      rw [register_tool_error tb f e hfs]
      constructor
      · exact hnd.sublist ((dictDel_sublist tb.all_tools f.name).map Prod.fst)
      · intro n hn
        have hn' : n ∈ dictKeys tb.all_tools :=
          ((dictDel_sublist tb.all_tools f.name).map Prod.fst).subset hn
        exact hinv n hn'
  | ok sch =>
      rw [register_tool_ok tb f sch hfs]
      constructor
      · exact nodup_dictKeys_dictSet _ _ _ hnd
      · intro n hn
        by_cases hnf : n = f.name
        · subst hnf
          exact ⟨sch, dictGet_dictSet_self _ _ _, schema_ok_subset f sch hfs⟩
        · have hn' : n ∈ dictKeys tb.all_tools := by
            rcases (mem_dictKeys_dictSet _ _ _ _).mp hn with h1 | h2
            · exact absurd h1 hnf
            · exact h2
          obtain ⟨sch', hg, hsub⟩ := hinv n hn'
          refine ⟨sch', ?_, hsub⟩
          rw [dictGet_dictSet_ne _ _ _ _ hnf]
          exact hg

theorem regInv_register_tools (tb : ToolBox) (fs : List PyFunc) (h : RegInv tb) :
    RegInv (register_tools tb fs) := by
  induction fs generalizing tb with
  | nil => simpa [register_tools] using h
  | cons f fs ih =>
      simp only [register_tools, List.foldl_cons]
      simp only [register_tools] at ih
      exact ih _ (regInv_register tb f h)

theorem length_filterMap_of_all_some {α β : Type} (l : List α) (f : α → Option β)
    (h : ∀ x ∈ l, (f x).isSome) : (l.filterMap f).length = l.length := by
  induction l with
  | nil => simp
  | cons a as ih =>
      have ha := h a (List.mem_cons_self a as)
      obtain ⟨b, hb⟩ := Option.isSome_iff_exists.mp ha
      simp [List.filterMap_cons, hb,
            ih (fun x hx => h x (List.mem_cons_of_mem _ hx))]

/-- C3 counterexample: on a ToolBox with no tools, the request naming
"ghost" does not produce the exact message the claim states; the message
the code builds continues with "in either direct tools or MCP tools.". -/
theorem C3_counterexample :
    execute_tool_call ToolBox.empty httpDummy ghostCall [] ≠ "Tool 'ghost' not found"
    ∧ execute_tool_call ToolBox.empty httpDummy ghostCall [] =
        "Tool 'ghost' not found in either direct tools or MCP tools." := by
  constructor
  · decide
  · rfl

/-- C3 amended: a request whose name is registered neither as a direct nor
as an MCP tool yields exactly "Tool '<name>' not found in either direct
tools or MCP tools.". -/
theorem C3_not_found_message (tb : ToolBox) (http : HttpFn) (tc : ToolCall)
    (kwargs : List (String × Json)) (n : String) (h1 : tc.fnName = some n)
    (h2 : dictGet tb.all_tools n = none) (h3 : dictMem tb.mcp_tools n = false) :
    execute_tool_call tb http tc kwargs =
      "Tool '" ++ n ++ "' not found in either direct tools or MCP tools." := by
  simp [execute_tool_call, h1, h2, h3]

/-- C3 witness: the amended message at the concrete unknown name ghost. -/
theorem C3_not_found_message_witness :
    execute_tool_call ToolBox.empty httpDummy ghostCall [] =
      "Tool '" ++ "ghost" ++ "' not found in either direct tools or MCP tools." :=
  C3_not_found_message ToolBox.empty httpDummy ghostCall [] "ghost" rfl rfl rfl

/-- C7: the fixed annotation-to-schema-type table of _function_to_schema:
the seven mapped classes, the Optional unwrap, and the string default for
absent or unrecognized annotations. -/
theorem C7_type_table :
    annToType (Ann.ty PyType.pstr) = "string"
    ∧ annToType (Ann.ty PyType.pint) = "integer"
    ∧ annToType (Ann.ty PyType.pfloat) = "number"
    ∧ annToType (Ann.ty PyType.pbool) = "boolean"
    ∧ annToType (Ann.ty PyType.plist) = "array"
    ∧ annToType (Ann.ty PyType.pdict) = "object"
    ∧ annToType (Ann.ty PyType.pnone) = "null"
    ∧ (∀ t : PyType, t ≠ PyType.pnone →
         annToType (Ann.union [t, PyType.pnone]) = annToType (Ann.ty t))
    ∧ annToType Ann.empty = "string"
    ∧ (∀ s : String, annToType (Ann.ty (PyType.other s)) = "string") := by
  refine ⟨rfl, rfl, rfl, rfl, rfl, rfl, rfl, ?_, rfl, fun s => rfl⟩
  intro t ht
  have hbne : (t != PyType.pnone) = true := by simp [bne_iff_ne, ht]
  have hfil : List.filter (fun t => t != PyType.pnone) [t, PyType.pnone] = [t] := by
    simp [List.filter, hbne]
  simp [annToType, annResolve, hfil]

/-- C7 witness: the Optional clause applied at int | None. -/
theorem C7_type_table_witness :
    annToType (Ann.union [PyType.pint, PyType.pnone]) = annToType (Ann.ty PyType.pint) :=
  C7_type_table.2.2.2.2.2.2.2.1 PyType.pint (by decide)

/-- C9 counterexample: after cleanup on a connected handler the session
attribute is still set, so execute_tool passes the not-connected guard and
proceeds to attempt the call on the closed session instead of failing; no
SessionClosed failure exists on this path. -/
theorem C9_counterexample :
    execute_tool (cleanup liveHandler) "t" =
      ExecAttempt.callAttempted { closed := true } "t" := by
  decide

/-- C9 amended: listing tools or executing a tool before connect raises
RuntimeError("Not connected to MCP server"); after cleanup the session
attribute keeps referencing the (now closed) session, so an execution
attempt proceeds into session.call_tool on the closed session rather than
failing with a SessionClosed guard. -/
theorem C9_session_guard :
    get_available_tools MCPHandler.init =
        ListAttempt.raiseNotConnected "Not connected to MCP server"
    ∧ (∀ name, execute_tool MCPHandler.init name =
         ExecAttempt.raiseNotConnected "Not connected to MCP server")
    ∧ (∀ (h : MCPHandler) (s : MCPSession) (name : String), h.session = some s →
         execute_tool (cleanup h) name =
           ExecAttempt.callAttempted { closed := true } name) := by
  refine ⟨rfl, fun name => rfl, ?_⟩
  intro h s name hs
  simp [cleanup, execute_tool, hs]

/-- C9 witness: the post-cleanup clause at a concrete connected handler. -/
theorem C9_session_guard_witness :
    execute_tool (cleanup liveHandler) "x" =
      ExecAttempt.callAttempted { closed := true } "x" :=
  C9_session_guard.2.2 liveHandler { closed := false } "x" rfl

/-- C10: when the request's name is a key of all_tools, dispatch always
takes the direct path; the result is execute_direct_tool's, a function of
the direct tool alone, independent of the MCP table and of the HTTP layer,
so the MCP tool of the same name is never invoked. -/
theorem C10_direct_precedence (tb : ToolBox) (http : HttpFn) (tc : ToolCall)
    (kwargs : List (String × Json)) (n : String) (f : PyFunc)
    (h1 : tc.fnName = some n) (h2 : dictGet tb.all_tools n = some f) :
    execute_tool_call tb http tc kwargs = execute_direct_tool n f tc kwargs := by
  simp [execute_tool_call, h1, h2]

/-- C10 witness: with add registered both directly and as an MCP tool and
an HTTP layer that would answer differently, dispatch returns the direct
tool's result. -/
theorem C10_direct_precedence_witness :
    execute_tool_call bothBox httpWrong addCall [] =
      execute_direct_tool "add" addFunc addCall [] :=
  C10_direct_precedence bothBox httpWrong addCall [] "add" addFunc rfl rfl

/-- A call request whose arguments attribute is not valid JSON. -/
def notJsonCall : ToolCall :=
  { fnName := some "add", arguments := PyArgs.pstr "not-json" }

/-- C1: execute_tool_call converts every failure of the underlying callable
and every failure of the MCP round trip into an error string naming the
tool and the failure.  That no exception escapes the boundary is carried by
the embedding itself: execute_tool_call is a total function into String
because every source path is wrapped in try/except. -/
theorem C1_error_conversion :
    (∀ (tb : ToolBox) (http : HttpFn) (tc : ToolCall) (kwargs : List (String × Json))
       (n : String) (f : PyFunc) (margs : List (String × Json)) (e : String),
       tc.fnName = some n → dictGet tb.all_tools n = some f →
       parse_llm_args n tc.arguments = Except.ok margs →
       f.impl (dictMerge margs kwargs) = Except.error e →
       execute_tool_call tb http tc kwargs =
         "Error executing direct tool '" ++ n ++ "': " ++ e)
    ∧ (∀ (tb : ToolBox) (http : HttpFn) (tc : ToolCall) (kwargs : List (String × Json))
       (n : String) (margs : List (String × Json)) (e : String),
       tc.fnName = some n → dictGet tb.all_tools n = none →
       dictMem tb.mcp_tools n = true →
       parse_llm_args n tc.arguments = Except.ok margs →
       http n (dictMerge margs kwargs) = Except.error e →
       execute_tool_call tb http tc kwargs =
         "Error executing MCP tool '" ++ n ++ "': " ++ e) := by
  constructor
  · intro tb http tc kwargs n f margs e h1 h2 h3 h4
    simp [execute_tool_call, h1, h2, execute_direct_tool, h3, h4]
  · intro tb http tc kwargs n margs e h1 h2 h3 h4 h5
    simp [execute_tool_call, h1, h2, h3, execute_mcp_tool, h4, h5]

/-- C1 witness: a registered callable that raises is converted into the
direct-tool error string. -/
theorem C1_error_conversion_witness :
    execute_tool_call failBox httpDummy failCall [] =
      "Error executing direct tool '" ++ "boom" ++ "': " ++ "RuntimeError: boom" :=
  C1_error_conversion.1 failBox httpDummy failCall [] "boom" failFunc []
    "RuntimeError: boom" rfl rfl rfl rfl

/-- C4: for a registered direct tool, a non-string arguments attribute, a
malformed JSON string, and a JSON string decoding to a non-object each
yield an error result whose message describes that exact failure, and the
three message kinds are pairwise distinct. -/
theorem C4_argument_errors :
    (∀ (tb : ToolBox) (http : HttpFn) (tc : ToolCall) (kwargs : List (String × Json))
       (n : String) (f : PyFunc) (ty : String),
       tc.fnName = some n → dictGet tb.all_tools n = some f →
       tc.arguments = PyArgs.nonstr ty →
       execute_tool_call tb http tc kwargs =
         "Error executing direct tool '" ++ n ++ "': "
           ++ ("Tool arguments for '" ++ n ++ "' must be a JSON string, got " ++ ty))
    ∧ (∀ (tb : ToolBox) (http : HttpFn) (tc : ToolCall) (kwargs : List (String × Json))
       (n : String) (f : PyFunc) (s e : String),
       tc.fnName = some n → dictGet tb.all_tools n = some f →
       tc.arguments = PyArgs.pstr s → json_loads s = Except.error e →
       execute_tool_call tb http tc kwargs =
         "Error executing direct tool '" ++ n ++ "': " ++ e)
    ∧ (∀ (tb : ToolBox) (http : HttpFn) (tc : ToolCall) (kwargs : List (String × Json))
       (n : String) (f : PyFunc) (s : String) (v : Json),
       tc.fnName = some n → dictGet tb.all_tools n = some f →
       tc.arguments = PyArgs.pstr s → json_loads s = Except.ok v →
       (∀ fs, v ≠ Json.jobj fs) →
       execute_tool_call tb http tc kwargs =
         "Error executing direct tool '" ++ n ++ "': "
           ++ ("Parsed tool arguments for '" ++ n ++ "' must be a dictionary, got "
                ++ pyJsonTypeName v))
    ∧ errOf (parse_llm_args "t" (PyArgs.nonstr "<class 'dict'>"))
        ≠ errOf (parse_llm_args "t" (PyArgs.pstr "not-json"))
    ∧ errOf (parse_llm_args "t" (PyArgs.pstr "not-json"))
        ≠ errOf (parse_llm_args "t" (PyArgs.pstr "[1]"))
    ∧ errOf (parse_llm_args "t" (PyArgs.nonstr "<class 'dict'>"))
        ≠ errOf (parse_llm_args "t" (PyArgs.pstr "[1]")) := by
  refine ⟨?_, ?_, ?_, by decide, by decide, by decide⟩
  · intro tb http tc kwargs n f ty h1 h2 h3
    simp [execute_tool_call, h1, h2, execute_direct_tool, h3, parse_llm_args]
  · intro tb http tc kwargs n f s e h1 h2 h3 h4
    simp [execute_tool_call, h1, h2, execute_direct_tool, h3, parse_llm_args, h4]
  · intro tb http tc kwargs n f s v h1 h2 h3 h4 h5
    cases v with
    | jobj fs => exact absurd rfl (h5 fs)
    | jnull =>
        simp [execute_tool_call, h1, h2, execute_direct_tool, h3, parse_llm_args, h4]
    | jbool b =>
        simp [execute_tool_call, h1, h2, execute_direct_tool, h3, parse_llm_args, h4]
    | jnum i =>
        simp [execute_tool_call, h1, h2, execute_direct_tool, h3, parse_llm_args, h4]
    | jstr st =>
        simp [execute_tool_call, h1, h2, execute_direct_tool, h3, parse_llm_args, h4]
    | jarr xs =>
        simp [execute_tool_call, h1, h2, execute_direct_tool, h3, parse_llm_args, h4]

/-- C4 witness: the malformed-arguments request of the testable properties
against the registered add tool yields the decode-error result. -/
theorem C4_argument_errors_witness :
    execute_tool_call addBox httpDummy notJsonCall [] =
      "Error executing direct tool '" ++ "add" ++ "': " ++ "Expecting value" :=
  C4_argument_errors.2.1 addBox httpDummy notJsonCall [] "add" addFunc
    "not-json" "Expecting value" rfl rfl rfl rfl

/-- C5 counterexample: a successful MCP dispatch whose remote tool returns
a JSON null yields str(None) = "None", not the sentinel message the claim
requires for null results — the sentinel substitution exists only on the
direct-tool path (line 198), not on the MCP path (line 235). -/
theorem C5_counterexample :
    execute_tool_call mcpBox httpNull mcpCall [] = "None"
    ∧ execute_tool_call mcpBox httpNull mcpCall [] ≠
        "Tool executed successfully with no return value." := by
  refine ⟨rfl, ?_⟩
  decide

/-- C5 amended: on the direct path a successful execution returns the
sentinel for a None result and str(result) otherwise; on the MCP path a
successful round trip returns str of the decoded body unconditionally. -/
theorem C5_success_coercion :
    (∀ (tb : ToolBox) (http : HttpFn) (tc : ToolCall) (kwargs : List (String × Json))
       (n : String) (f : PyFunc) (margs : List (String × Json)) (v : PyVal),
       tc.fnName = some n → dictGet tb.all_tools n = some f →
       parse_llm_args n tc.arguments = Except.ok margs →
       f.impl (dictMerge margs kwargs) = Except.ok v →
       (v = PyVal.vnone →
          execute_tool_call tb http tc kwargs =
            "Tool executed successfully with no return value.")
       ∧ (v ≠ PyVal.vnone → execute_tool_call tb http tc kwargs = pyStr v))
    ∧ (∀ (tb : ToolBox) (http : HttpFn) (tc : ToolCall) (kwargs : List (String × Json))
       (n : String) (margs : List (String × Json)) (j : Json),
       tc.fnName = some n → dictGet tb.all_tools n = none →
       dictMem tb.mcp_tools n = true →
       parse_llm_args n tc.arguments = Except.ok margs →
       http n (dictMerge margs kwargs) = Except.ok j →
       execute_tool_call tb http tc kwargs = pyStrJson j) := by
  constructor
  · intro tb http tc kwargs n f margs v h1 h2 h3 h4
    constructor
    · intro hv
      subst hv
      simp [execute_tool_call, h1, h2, execute_direct_tool, h3, h4]
    · intro hv
      cases v with
      | vnone => exact absurd rfl hv
      | vint i => simp [execute_tool_call, h1, h2, execute_direct_tool, h3, h4]
      | vstr s => simp [execute_tool_call, h1, h2, execute_direct_tool, h3, h4]
      | vbool b => simp [execute_tool_call, h1, h2, execute_direct_tool, h3, h4]
  · intro tb http tc kwargs n margs j h1 h2 h3 h4 h5
    simp [execute_tool_call, h1, h2, h3, execute_mcp_tool, h4, h5]

/-- C5 witness: the round-trip example — dispatching arguments
'\x7b"a": 2, "b": 3\x7d' to the registered add tool returns "5". -/
theorem C5_success_coercion_witness :
    execute_tool_call addBox httpDummy addCall [] = "5" :=
  ((C5_success_coercion.1 addBox httpDummy addCall [] "add" addFunc
      [("a", Json.jnum 2), ("b", Json.jnum 3)] (PyVal.vint 5)
      rfl rfl rfl rfl).2 (by decide)).trans rfl

theorem dictGet_dictDel_self {α : Type} (d : List (String × α)) (k : String)
    (h : (dictKeys d).Nodup) : dictGet (dictDel d k) k = none := by
  induction d with
  | nil => simp [dictDel, dictGet]
  | cons hd tl ih =>
      obtain ⟨a, w⟩ := hd
      simp only [dictKeys, List.map_cons, List.nodup_cons] at h
      obtain ⟨ha, htl⟩ := h
      by_cases hak : a = k
      · subst hak
        simp only [dictDel, if_pos rfl]
        exact (dictGet_none_iff tl a).mpr ha
      · simp only [dictDel, if_neg hak, dictGet, if_neg hak]
        exact ih htl

/-- C2 counterexample: re-registering the name f with a non-introspectable
callable does not leave the registry as it was before the call — the
previously registered tool f is deleted by the rollback, not restored, so
the registered-name list changes from a singleton to empty.  The model's
register_tool also shows the failure is not raised: it returns a state and
log messages, as the method catches the ValueError and returns None. -/
theorem C2_counterexample :
    get_tool_names (register_tool (register_tool ToolBox.empty okTool).1 badTool).1 ≠
      get_tool_names (register_tool ToolBox.empty okTool).1 := by
  decide

/-- C2 amended: a failed registration is caught inside register_tool (the
SchemaError is logged, not raised); the partially-inserted entry is removed
from all_tools, so for a name not previously registered the registry state
is exactly as before the call; for an already-registered name the previous
tool is deleted rather than restored. -/
theorem C2_rollback :
    (∀ (tb : ToolBox) (f : PyFunc), f.sig = none →
       dictMem tb.all_tools f.name = false →
       (register_tool tb f).1 = tb
       ∧ (register_tool tb f).2 =
           ["Error generating schema for tool '" ++ f.name ++ "': "
              ++ ("Failed to get signature for function '" ++ f.name
                    ++ "': unsupported callable")
              ++ ". Tool not fully registered."])
    ∧ (∀ (tb : ToolBox) (f : PyFunc), f.sig = none →
       (dictKeys tb.all_tools).Nodup →
       dictMem (register_tool tb f).1.all_tools f.name = false) := by
  constructor
  · intro tb f hf hmem
    have he : function_to_schema f =
        Except.error ("Failed to get signature for function '" ++ f.name
          ++ "': unsupported callable") := by
      simp [function_to_schema, hf]
    have hget : dictGet tb.all_tools f.name = none := by
      revert hmem
      rw [dictMem]
      cases dictGet tb.all_tools f.name <;> simp
    constructor
    · rw [register_tool_error tb f _ he, dictDel_of_get_none _ _ hget]
    · simp [register_tool, he, hmem]
  · intro tb f hf hnd
    have he : function_to_schema f =
        Except.error ("Failed to get signature for function '" ++ f.name
          ++ "': unsupported callable") := by
      simp [function_to_schema, hf]
    rw [register_tool_error tb f _ he]
    rw [dictMem, dictGet_dictDel_self _ _ hnd]
    rfl

/-- C2 witness: registering a non-introspectable callable under a fresh
name leaves the empty registry exactly empty. -/
theorem C2_rollback_witness :
    (register_tool ToolBox.empty badFresh).1 = ToolBox.empty :=
  (C2_rollback.1 ToolBox.empty badFresh rfl rfl).1

/-- C6: over a signature with distinct parameter names, a non-receiver,
non-variadic parameter's name is in the synthesized required list iff the
parameter has no default value; and the schema synthesized for
f(x: int, y: str = "hi") has integer/string properties for x and y with
required exactly [x]. -/
theorem C6_required_iff :
    (∀ (params : List Param) (p : Param),
       (params.map Param.name).Nodup → p ∈ params →
       p.name ≠ "self" → p.kind ≠ PKind.varPos → p.kind ≠ PKind.varKw →
       (p.name ∈ schemaRequired params ↔ p.default = none))
    ∧ function_to_schema fxyFunc = Except.ok fxySchema := by
  constructor
  · intro params p hnd hp hself hv1 hv2
    constructor
    · intro hmem
      simp only [schemaRequired, List.mem_map] at hmem
      obtain ⟨q, hqf, hqname⟩ := hmem
      rw [List.mem_filter] at hqf
      obtain ⟨hq, hqreq⟩ := hqf
      have hqp : q = p := List.inj_on_of_nodup_map hnd hq hp hqname
      subst hqp
      exact ((reqParam_iff q).mp hqreq).1
    · intro hdef
      have hreq : reqParam p = true :=
        (reqParam_iff p).mpr ⟨hdef, hself, hv1, hv2⟩
      simp only [schemaRequired, List.mem_map]
      exact ⟨p, List.mem_filter.mpr ⟨hp, hreq⟩, rfl⟩
  · rfl

/-- C6 witness: the required-iff clause applied at the parameter x of the
example signature [x: int, y: str = "hi"]. -/
theorem C6_required_iff_witness :
    "x" ∈ schemaRequired [paramX, paramY] ↔ paramX.default = none :=
  C6_required_iff.1 [paramX, paramY] paramX (by decide) (by decide)
    (by decide) (by decide) (by decide)

/-- C8: after any sequence of registrations starting from an empty ToolBox,
the exported schema list has exactly one entry per registered name (names
are distinct, each has a schema, lengths agree) and every exported schema's
required list is a subset of its property keys. -/
theorem C8_schemas_invariant (fs : List PyFunc) :
    (get_tool_schemas (register_tools ToolBox.empty fs)).length =
      (get_tool_names (register_tools ToolBox.empty fs)).length
    ∧ (get_tool_names (register_tools ToolBox.empty fs)).Nodup
    ∧ (∀ n, n ∈ get_tool_names (register_tools ToolBox.empty fs) →
        ∃ sch, dictGet (register_tools ToolBox.empty fs).tool_schemas n = some sch)
    ∧ (∀ sch, sch ∈ get_tool_schemas (register_tools ToolBox.empty fs) →
        sch.required ⊆ dictKeys sch.properties) := by
  obtain ⟨hnd, hrest⟩ := regInv_register_tools ToolBox.empty fs regInv_empty
  refine ⟨?_, hnd, ?_, ?_⟩
  · simp only [get_tool_schemas, get_tool_names]
    apply length_filterMap_of_all_some
    intro n hn
    obtain ⟨sch, hs, _⟩ := hrest n hn
    rw [hs]
    rfl
  · intro n hn
    obtain ⟨sch, hs, _⟩ := hrest n hn
    exact ⟨sch, hs⟩
  · intro sch hsch
    simp only [get_tool_schemas, List.mem_filterMap] at hsch
    obtain ⟨n, hn, hget⟩ := hsch
    obtain ⟨sch', hs', hsub⟩ := hrest n hn
    rw [hs'] at hget
    cases hget
    exact hsub

/-- C8 witness: after registering add, the schema list has one entry, one
name, and the name add carries a schema. -/
theorem C8_schemas_invariant_witness :
    (get_tool_schemas (register_tools ToolBox.empty [addFunc])).length =
      (get_tool_names (register_tools ToolBox.empty [addFunc])).length
    ∧ ∃ sch, dictGet (register_tools ToolBox.empty [addFunc]).tool_schemas "add" =
        some sch :=
  ⟨(C8_schemas_invariant [addFunc]).1,
   (C8_schemas_invariant [addFunc]).2.2.1 "add" (by decide)⟩
